import Mathlib

/-
Verification development for the GoClash battle core (src/main.go).

The Go program's float64 arithmetic is modelled exactly: a float64 value is
represented by the rational number it denotes, and every float64 operation
(constant conversion, multiplication, addition/subtraction, int conversion)
is an exact rational operation followed by IEEE-754 round-to-nearest-even,
implemented below as `fl64`.  Subnormal and overflow ranges never occur for
the program's values and are not modelled specially.

Rational arithmetic inside the model goes through `qmul`/`qadd`/`qsub`,
thin `mkRat`-based wrappers proved equal to the standard `ℚ` operations;
the wrappers reduce inside the kernel, so concrete runs of the model can be
checked by `decide`.
-/

set_option maxHeartbeats 1000000
set_option maxRecDepth 8000

/-- Kernel-reducible multiplication on `ℚ` (equal to `*`, see `qmul_eq`). -/
def qmul (a b : ℚ) : ℚ := mkRat (a.num * b.num) (a.den * b.den)

/-- Kernel-reducible addition on `ℚ` (equal to `+`, see `qadd_eq`). -/
def qadd (a b : ℚ) : ℚ := mkRat (a.num * (b.den : ℤ) + b.num * (a.den : ℤ)) (a.den * b.den)

/-- Kernel-reducible subtraction on `ℚ` (equal to `-`, see `qsub_eq`). -/
def qsub (a b : ℚ) : ℚ := mkRat (a.num * (b.den : ℤ) - b.num * (a.den : ℤ)) (a.den * b.den)

lemma qmul_eq (a b : ℚ) : qmul a b = a * b := by
  have hd : ((a.den : ℚ)) ≠ 0 := by exact_mod_cast a.den_nz
  have hd' : ((b.den : ℚ)) ≠ 0 := by exact_mod_cast b.den_nz
  conv_rhs => rw [← Rat.num_div_den a, ← Rat.num_div_den b, div_mul_div_comm]
  rw [qmul, Rat.mkRat_eq_div]
  push_cast
  ring

lemma qadd_eq (a b : ℚ) : qadd a b = a + b := by
  have hd : ((a.den : ℚ)) ≠ 0 := by exact_mod_cast a.den_nz
  have hd' : ((b.den : ℚ)) ≠ 0 := by exact_mod_cast b.den_nz
  conv_rhs => rw [← Rat.num_div_den a, ← Rat.num_div_den b, div_add_div _ _ hd hd']
  rw [qadd, Rat.mkRat_eq_div]
  push_cast
  ring

lemma qsub_eq (a b : ℚ) : qsub a b = a - b := by
  have hd : ((a.den : ℚ)) ≠ 0 := by exact_mod_cast a.den_nz
  have hd' : ((b.den : ℚ)) ≠ 0 := by exact_mod_cast b.den_nz
  conv_rhs => rw [← Rat.num_div_den a, ← Rat.num_div_den b, div_sub_div _ _ hd hd']
  rw [qsub, Rat.mkRat_eq_div]
  push_cast
  ring

/-- Fuelled base-2 logarithm on naturals: `log2fuel fuel n` is `⌊log₂ n⌋`
when `fuel` is large enough.  Structural recursion on the fuel keeps it
kernel-reducible. -/
def log2fuel : ℕ → ℕ → ℕ
  | 0, _ => 0
  | fuel + 1, n => if n ≤ 1 then 0 else log2fuel fuel (n / 2) + 1

/-- Fuelled base-2 ceiling logarithm on naturals. -/
def clog2fuel : ℕ → ℕ → ℕ
  | 0, _ => 0
  | fuel + 1, n => if n ≤ 1 then 0 else clog2fuel fuel ((n + 1) / 2) + 1

/-- Base-2 logarithm with self-fuel (enough fuel for any input). -/
def natLog2 (n : ℕ) : ℕ := log2fuel n n

/-- Base-2 ceiling logarithm with self-fuel. -/
def natClog2 (n : ℕ) : ℕ := clog2fuel n n

/-- Ceiling of the inverse of a positive rational, computed without the
(irreducible) rational inverse: `q⁻¹ = den/num` and `⌈a/b⌉ = -((-a).fdiv b)`. -/
def qceilInv (q : ℚ) : ℤ := -(Int.fdiv (-(q.den : ℤ)) q.num)

/-- Binade exponent of a positive rational: the `e` with `2^e ≤ q < 2^(e+1)`. -/
def qexp2 (q : ℚ) : ℤ :=
  if 1 ≤ q then (natLog2 ⌊q⌋.toNat : ℤ) else -(natClog2 (qceilInv q).toNat : ℤ)

/-- `2 ^ z` as a rational, for an integer exponent, via natural powers only. -/
def pow2z (z : ℤ) : ℚ :=
  if 0 ≤ z then mkRat ((2 ^ z.toNat : ℕ) : ℤ) 1 else mkRat 1 (2 ^ (-z).toNat)

/-- Round a rational to the nearest integer, ties to even. -/
def rne (q : ℚ) : ℤ :=
  let n := ⌊q⌋
  let f := qsub q (n : ℚ)
  if f < mkRat 1 2 then n
  else if mkRat 1 2 < f then n + 1
  else if n % 2 = 0 then n else n + 1

/-- IEEE-754 double rounding of a positive rational: round the 53-bit
significand to nearest, ties to even. -/
def fl64pos (q : ℚ) : ℚ :=
  qmul ((rne (qmul q (pow2z (52 - qexp2 q))) : ℤ) : ℚ) (pow2z (qexp2 q - 52))

/-- IEEE-754 double rounding (round to nearest, ties to even) of a rational. -/
def fl64 (q : ℚ) : ℚ :=
  if q = 0 then 0 else if 0 < q then fl64pos q else -fl64pos (-q)

/-- Go float64 multiplication: exact product, then rounding. -/
def mul64 (a b : ℚ) : ℚ := fl64 (qmul a b)

/-- Go conversion `float64(n)` of an integer. -/
def intToF64 (n : ℤ) : ℚ := fl64 (n : ℚ)

/-- Go conversion `int(f)` of a float64: truncation toward zero. -/
def truncQ (q : ℚ) : ℤ := if 0 ≤ q then ⌊q⌋ else ⌈q⌉

/-- The program's `minFloat` (src/main.go lines 641-646). -/
def minFloat (a b : ℚ) : ℚ := if a < b then a else b

lemma log2fuel_le (fuel : ℕ) : ∀ n k : ℕ, n < 2 ^ (k + 1) → log2fuel fuel n ≤ k := by
  induction fuel with
  | zero => intro n k _; simp [log2fuel]
  | succ f ih =>
    intro n k h
    simp only [log2fuel]
    split
    · exact Nat.zero_le k
    · rename_i hn
      cases k with
      | zero => omega
      | succ k' =>
        have hdiv : n / 2 < 2 ^ (k' + 1) := by
          have h2 : (2 : ℕ) ^ (k' + 1 + 1) = 2 * 2 ^ (k' + 1) := by ring
          rw [h2] at h
          exact Nat.div_lt_of_lt_mul h
        exact Nat.succ_le_succ (ih (n / 2) k' hdiv)

lemma rne_intCast (m : ℤ) : rne (m : ℚ) = m := by
  have hhalf : (0 : ℚ) < mkRat 1 2 := by decide
  simp [rne, qsub_eq, hhalf]

lemma pow2z_nonneg_eq (z : ℤ) (h : 0 ≤ z) : pow2z z = ((2 ^ z.toNat : ℕ) : ℚ) := by
  rw [pow2z, if_pos h, Rat.mkRat_eq_div]
  push_cast
  rw [div_one]

lemma pow2z_mul_neg (z : ℤ) : qmul (pow2z z) (pow2z (-z)) = 1 := by
  rw [qmul_eq]
  by_cases h0 : z = 0
  · subst h0
    rw [neg_zero, pow2z_nonneg_eq 0 le_rfl]
    norm_num
  · rcases lt_or_gt_of_ne h0 with h | h
    · have h2 : (0 : ℤ) ≤ -z := by omega
      have h3 : ¬(0 : ℤ) ≤ z := by omega
      have hne : ((2 ^ (-z).toNat : ℕ) : ℚ) ≠ 0 := by positivity
      rw [pow2z_nonneg_eq (-z) h2, pow2z, if_neg h3, Rat.mkRat_eq_div]
      push_cast
      field_simp
    · have h2 : (0 : ℤ) ≤ z := by omega
      have h3 : ¬(0 : ℤ) ≤ -z := by omega
      have h4 : (- -z) = z := neg_neg z
      have hne : ((2 ^ z.toNat : ℕ) : ℚ) ≠ 0 := by positivity
      rw [pow2z_nonneg_eq z h2, pow2z, if_neg h3, h4, Rat.mkRat_eq_div]
      push_cast
      field_simp

lemma fl64pos_intCast (n : ℤ) (h1 : 0 < n) (h2 : n.natAbs < 2 ^ 53) :
    fl64pos (n : ℚ) = (n : ℚ) := by
  have hq1 : (1 : ℚ) ≤ (n : ℚ) := by exact_mod_cast h1
  have hfloor : ⌊(n : ℚ)⌋ = n := Int.floor_intCast n
  have hqexp : qexp2 (n : ℚ) = (natLog2 n.toNat : ℤ) := by
    simp [qexp2, hq1, hfloor]
  have hnn : n.toNat < 2 ^ (52 + 1) := by
    have : n.toNat = n.natAbs := by omega
    omega
  have hlog : natLog2 n.toNat ≤ 52 := log2fuel_le _ _ 52 hnn
  set e : ℤ := (natLog2 n.toNat : ℤ) with he
  have he52 : (0 : ℤ) ≤ 52 - e := by omega
  have hcast : (n : ℚ) * ((2 ^ (52 - e).toNat : ℕ) : ℚ) =
      ((n * 2 ^ (52 - e).toNat : ℤ) : ℚ) := by push_cast; ring
  have hneg : e - 52 = -(52 - e) := by ring
  calc fl64pos (n : ℚ)
      = ((rne (qmul (n : ℚ) (pow2z (52 - e))) : ℤ) : ℚ) * pow2z (e - 52) := by
        rw [fl64pos, hqexp, qmul_eq]
    _ = ((n * 2 ^ (52 - e).toNat : ℤ) : ℚ) * pow2z (e - 52) := by
        rw [qmul_eq, pow2z_nonneg_eq _ he52, hcast, rne_intCast]
    _ = (n : ℚ) * (pow2z (52 - e) * pow2z (-(52 - e))) := by
        rw [pow2z_nonneg_eq _ he52, hneg]; push_cast; ring
    _ = (n : ℚ) := by
        have hp := pow2z_mul_neg (52 - e)
        rw [qmul_eq] at hp
        rw [hp]; ring

lemma fl64_intCast (n : ℤ) (h : n.natAbs < 2 ^ 53) : fl64 (n : ℚ) = (n : ℚ) := by
  rcases lt_trichotomy n 0 with hn | rfl | hn
  · have hne : (n : ℚ) ≠ 0 := by exact_mod_cast hn.ne
    have hnlt : ¬(0 : ℚ) < (n : ℚ) := by
      simp only [not_lt]
      exact_mod_cast hn.le
    have hcast : -(n : ℚ) = ((-n : ℤ) : ℚ) := by push_cast; ring
    rw [fl64, if_neg hne, if_neg hnlt, hcast,
      fl64pos_intCast (-n) (by omega) (by omega)]
    push_cast; ring
  · simp [fl64]
  · have hne : (n : ℚ) ≠ 0 := by
      have : (0 : ℚ) < (n : ℚ) := by exact_mod_cast hn
      exact this.ne'
    have hpos : (0 : ℚ) < (n : ℚ) := by exact_mod_cast hn
    rw [fl64, if_neg hne, if_pos hpos, fl64pos_intCast n hn h]

/-
Data model, translated from src/main.go.  The Go field `Type` is called
`typ` here because `Type` is reserved in Lean; all other names match the
source.  Go `int` is modelled as `ℤ`, Go `float64` as the exact rational
value of the float; decimal Go literals such as `0.05` appear as
`fl64 (mkRat 5 100)`, their value after conversion to float64.
-/

/-- Tower (src/main.go lines 26-33). -/
structure Tower where
  typ : String
  HP : ℤ
  ATK : ℤ
  DEF : ℤ
  CRIT : ℚ
  MaxHP : ℤ
  deriving DecidableEq

/-- A card of a deck (clash.Card): only the name and level are used by the
battle core. -/
structure Card where
  Name : String
  Level : ℤ
  deriving DecidableEq

/-- CardStats (src/main.go lines 36-41). -/
structure CardStats where
  ElixirCost : ℤ
  BaseDamage : ℤ
  HitPoints : ℤ
  CritChance : ℚ
  deriving DecidableEq

/-- cardDatabase (src/main.go lines 44-53). -/
def cardDatabase (name : String) : Option CardStats :=
  if name = "Giant" then some ⟨5, 140, 2500, fl64 (mkRat 5 100)⟩
  else if name = "Musketeer" then some ⟨4, 100, 600, fl64 (mkRat 10 100)⟩
  else if name = "Fireball" then some ⟨3, 200, 0, fl64 (mkRat 15 100)⟩
  else if name = "Archers" then some ⟨3, 120, 350, fl64 (mkRat 8 100)⟩
  else if name = "Knight" then some ⟨3, 200, 800, fl64 (mkRat 8 100)⟩
  else if name = "Arrows" then some ⟨2, 100, 0, fl64 (mkRat 10 100)⟩
  else if name = "Goblin Barrel" then some ⟨3, 60, 150, fl64 (mkRat 7 100)⟩
  else if name = "Minions" then some ⟨3, 70, 200, fl64 (mkRat 9 100)⟩
  else none

/-- The fallback stats entry used for a catalog miss on the player path
(src/main.go lines 343, 421). -/
def fallbackStats : CardStats := ⟨3, 50, 100, fl64 (mkRat 5 100)⟩

/-- Catalog lookup with the player-path fallback. -/
def statsOrFallback (name : String) : CardStats :=
  (cardDatabase name).getD fallbackStats

/-- The initial towers of either side (src/main.go lines 352-361). -/
def stdGuard1 : Tower := ⟨"Guard Tower 1", 1000, 300, 100, fl64 (mkRat 5 100), 1000⟩

def stdGuard2 : Tower := ⟨"Guard Tower 2", 1000, 300, 100, fl64 (mkRat 5 100), 1000⟩

def stdKing : Tower := ⟨"King Tower", 2000, 500, 300, fl64 (mkRat 10 100), 2000⟩

def stdTowers : List Tower := [stdGuard1, stdGuard2, stdKing]

/-- The tower-crit chance selection in calculateDamage (src/main.go lines
535-541): default 0.05 (the guard-tower chance, per the source comment),
overridden by the first tower in slice order whose hit points are positive. -/
def towerCritChanceOf (targetTowers : List Tower) : ℚ :=
  match targetTowers.find? (fun t => decide (0 < t.HP)) with
  | some tower => tower.CRIT
  | none => fl64 (mkRat 5 100)

/-- calculateDamage (src/main.go lines 525-556).  The random draws are
explicit parameters: `randomFactor` is the jitter `rand.Intn(21) - 10`
already shifted into `[-10, 10]`, and `u1`, `u2` are the two
`rand.Float64()` draws in `[0, 1)` compared against the card and tower crit
chances.  The crit multiplier is built by the same two sequential float64
multiplications as the source (`*= 1.5`, `*= 1.2`). -/
def calculateDamage (card : Card) (stats : CardStats) (targetTowers : List Tower)
    (randomFactor : ℤ) (u1 u2 : ℚ) : ℤ × Bool × Bool :=
  let damage := stats.BaseDamage + (card.Level - 1) * 10
  let cardCrit : Bool := decide (u1 < stats.CritChance)
  let towerCrit : Bool := decide (u2 < towerCritChanceOf targetTowers)
  let critMultiplier : ℚ := 1
  let critMultiplier := if cardCrit then mul64 critMultiplier (mkRat 3 2) else critMultiplier
  let critMultiplier :=
    if towerCrit then mul64 critMultiplier (fl64 (mkRat 6 5)) else critMultiplier
  let totalDamage := truncQ (mul64 (intToF64 (damage + randomFactor)) critMultiplier)
  (max 1 totalDamage, cardCrit, towerCrit)

/-- Clamped hit points after subtracting damage (src/main.go lines 565-568). -/
def damagedHP (hp damage : ℤ) : ℤ := if hp - damage < 0 then 0 else hp - damage

/-- The inner loop of applyDamage: find the first tower of the given type
with positive hit points, damage it, and return the descriptor. -/
def damageFirst : List Tower → String → ℤ → Option (List Tower × String)
  | [], _, _ => none
  | t :: rest, targetType, damage =>
    if t.typ = targetType ∧ 0 < t.HP then
      some ({ t with HP := damagedHP t.HP damage } :: rest,
        t.typ ++ " (HP now " ++ toString (damagedHP t.HP damage) ++ ")")
    else
      match damageFirst rest targetType damage with
      | some (ts, s) => some (t :: ts, s)
      | none => none

/-- The fixed target order of applyDamage (src/main.go line 561). -/
def targetOrder : List String := ["Guard Tower 1", "Guard Tower 2", "King Tower"]

/-- The outer loop of applyDamage over the target order. -/
def applyDamageLoop (towers : List Tower) (damage : ℤ) : List String → Option (List Tower × String)
  | [] => none
  | ty :: rest =>
    match damageFirst towers ty damage with
    | some r => some r
    | none => applyDamageLoop towers damage rest

/-- applyDamage (src/main.go lines 559-574): returns the updated tower list
and the descriptor string. -/
def applyDamage (towers : List Tower) (damage : ℤ) : List Tower × String :=
  (applyDamageLoop towers damage targetOrder).getD (towers, "No towers left")

/-- isKingTowerDestroyed (src/main.go lines 577-584). -/
def isKingTowerDestroyed (towers : List Tower) : Bool :=
  towers.any (fun t => t.typ = "King Tower" && decide (t.HP ≤ 0))

/-- Go `strings.TrimSpace`, restricted to ASCII whitespace. -/
def isSpaceChar (c : Char) : Bool := c = ' ' || c = '\t' || c = '\n' || c = '\r'

def trimSpace (s : String) : String :=
  ⟨((s.data.dropWhile isSpaceChar).reverse.dropWhile isSpaceChar).reverse⟩

/-- Numeric value of a list of decimal digits. -/
def digitsVal (cs : List Char) : ℤ :=
  cs.foldl (fun acc c => acc * 10 + ((c.toNat - '0'.toNat : ℕ) : ℤ)) 0

/-- parseInt (src/main.go lines 618-622): `fmt.Sscanf(s, "%d", &n)` skips
leading spaces, reads an optional sign and a nonempty run of decimal
digits, and succeeds even when trailing characters remain. -/
def parseInt (s : String) : Option ℤ :=
  let cs := s.data.dropWhile isSpaceChar
  let signAndRest : ℤ × List Char :=
    match cs with
    | '-' :: r => (-1, r)
    | '+' :: r => (1, r)
    | _ => (1, cs)
  let digits := signAndRest.2.takeWhile Char.isDigit
  if digits.isEmpty then none else some (signAndRest.1 * digitsVal digits)

/-- Elixir regeneration for one pool (src/main.go lines 463-464): add 1.0,
cap at 10.0. -/
def regenerate (e : ℚ) : ℚ := minFloat (fl64 (qadd e 1)) 10

/-- The spend operation of the player path (src/main.go lines 425-433):
fails and leaves the pool untouched when `float64(cost)` exceeds it,
otherwise deducts the cost. -/
def spend (e : ℚ) (cost : ℤ) : Option ℚ :=
  if fl64 (cost : ℚ) > e then none else some (fl64 (qsub e (fl64 (cost : ℚ))))

/-
The battle engine (playGame, src/main.go lines 337-522).  The select loop's
four event arms are embedded as one pure handler per arm over the explicit
battle state; the random draws made while processing an event are explicit
parameters of the handler.
-/

/-- The mutable battle state owned by the game loop (GameState plus the
replay log, src/main.go lines 72-77, 351-365). -/
structure EngineState where
  playerTowers : List Tower
  enemyTowers : List Tower
  playerElixir : ℚ
  enemyElixir : ℚ
  replay : List String
  deriving DecidableEq

/-- The four terminal outcomes of a battle (spec BattleOutcome); each tags
one of the four `return replay` branches of the loop. -/
inductive Outcome where
  | playerWin
  | opponentWin
  | surrender
  | draw
  deriving DecidableEq

/-- What processing one player-input event did (the three branches of the
`case input := <-inputChan` arm). -/
inductive InputRes where
  | invalidChoice
  | insufficientElixir
  | played (action : String) (finished : Bool)
  deriving DecidableEq

/-- Messages the input-reader goroutine (src/main.go lines 376-385) can
deliver into the engine. -/
inductive Msg where
  | input (s : String)
  | quit
  deriving DecidableEq

/-- The input-reader goroutine's handling of one line (src/main.go lines
377-383): the trimmed line is always sent on `inputChan`, and additionally
on `quitChan` when it equals "0". -/
def deliverLine (line : String) : List Msg :=
  let input := trimSpace line
  if input = "0" then [Msg.input input, Msg.quit] else [Msg.input input]

/-- The surrender arm (src/main.go lines 401-406): append the log entry and
return; the two booleans record that `elixirTick.Stop()` and
`enemyActionTick.Stop()` were called. -/
def handleQuit (st : EngineState) : EngineState × Outcome × Bool × Bool :=
  ({ st with replay := st.replay ++ ["Player surrendered"] }, Outcome.surrender, true, true)

/-- The crit annotation appended to action strings (src/main.go lines
436-443 and 485-492). -/
def critTextOf (cardCrit towerCrit : Bool) : String :=
  if cardCrit && towerCrit then " (Double CRIT)"
  else if cardCrit then " (Card CRIT)"
  else if towerCrit then " (Tower CRIT)"
  else ""

/-- A default card for list indexing (indices are in range in every use). -/
def defaultCard : Card := ⟨"", 0⟩

/-- The end-of-play check of the player-input arm (src/main.go lines
452-459): after the mutation, a destroyed enemy King Tower ends the battle
in PlayerWin. -/
def finishInput (st1 : EngineState) (action : String) : EngineState × InputRes :=
  if isKingTowerDestroyed st1.enemyTowers then
    ({ st1 with replay := st1.replay ++ ["Player won the match"] },
      InputRes.played action true)
  else (st1, InputRes.played action false)

/-- The player-input arm (src/main.go lines 408-459). -/
def handleInput (deck : List Card) (st : EngineState) (input : String)
    (randomFactor : ℤ) (u1 u2 : ℚ) : EngineState × InputRes :=
  match parseInt input with
  | none => (st, InputRes.invalidChoice)
  | some choice =>
    if choice < 1 ∨ (deck.length : ℤ) < choice then (st, InputRes.invalidChoice)
    else
      let selectedCard := deck.getD (choice - 1).toNat defaultCard
      let stats := statsOrFallback selectedCard.Name
      if fl64 (stats.ElixirCost : ℚ) > st.playerElixir then (st, InputRes.insufficientElixir)
      else
        let r := calculateDamage selectedCard stats st.enemyTowers randomFactor u1 u2
        let damage := r.1
        let ar := applyDamage st.enemyTowers damage
        let action := "Player used " ++ selectedCard.Name ++ " (Level "
          ++ toString selectedCard.Level ++ ") dealing " ++ toString damage
          ++ " damage" ++ critTextOf r.2.1 r.2.2 ++ " to " ++ ar.2
        finishInput { st with
          enemyTowers := ar.1,
          playerElixir := fl64 (qsub st.playerElixir (fl64 (stats.ElixirCost : ℚ))),
          replay := st.replay ++ [action] } action

/-- The elixir-regeneration arm (src/main.go lines 461-464). -/
def handleElixirTick (st : EngineState) : EngineState :=
  { st with
    playerElixir := regenerate st.playerElixir,
    enemyElixir := regenerate st.enemyElixir }

/-- simulateEnemyTurn (src/main.go lines 603-615): `cardIdx` is the
`rand.Intn(len(deck))` draw; the enemy catalog miss uses the zero-filled
fallback of line 610. -/
def simulateEnemyTurn (deck : List Card) (enemyElixir : ℚ) (opponentName : String)
    (targetTowers : List Tower) (cardIdx : ℕ) (randomFactor : ℤ) (u1 u2 : ℚ) :
    ℤ × Bool × Bool × String :=
  if enemyElixir < 3 ∨ deck.length = 0 then
    (0, false, false, opponentName ++ " skipped turn (not enough elixir)")
  else
    let card := deck.getD cardIdx defaultCard
    let stats := (cardDatabase card.Name).getD ⟨0, 50, 0, fl64 (mkRat 5 100)⟩
    let r := calculateDamage card stats targetTowers randomFactor u1 u2
    (r.1, r.2.1, r.2.2,
      opponentName ++ " used " ++ card.Name ++ " (Level " ++ toString card.Level ++ ")")

/-- The end-of-turn check of the opponent-action arm (src/main.go lines
502-509): a destroyed player King Tower ends the battle in OpponentWin. -/
def finishEnemy (st1 : EngineState) : EngineState × Option Outcome :=
  if isKingTowerDestroyed st1.playerTowers then
    ({ st1 with replay := st1.replay ++ ["Opponent won the match"] }, some Outcome.opponentWin)
  else (st1, none)

/-- The opponent-action arm (src/main.go lines 471-510). -/
def handleEnemyTick (enemyDeck : List Card) (opponentName : String) (st : EngineState)
    (cardIdx : ℕ) (randomFactor : ℤ) (u1 u2 : ℚ) : EngineState × Option Outcome :=
  if isKingTowerDestroyed st.playerTowers then (st, none)
  else
    let r := simulateEnemyTurn enemyDeck st.enemyElixir opponentName st.playerTowers
      cardIdx randomFactor u1 u2
    let enemyDamage := r.1
    finishEnemy (if 0 < enemyDamage then
      let ar := applyDamage st.playerTowers enemyDamage
      let fullAction := r.2.2.2 ++ " dealing " ++ toString enemyDamage ++ " damage"
        ++ critTextOf r.2.1 r.2.2.1 ++ " to " ++ ar.2
      { st with
        playerTowers := ar.1,
        enemyElixir := fl64 (qsub st.enemyElixir 3),
        replay := st.replay ++ [fullAction] }
    else st)

/-- An abstract elixir operation, for stating the elixir-pool invariant:
either a regeneration tick or a card play at a given cost. -/
inductive ElixirOp where
  | regen
  | spendCard (cost : ℤ)
  deriving DecidableEq

/-- Run a sequence of elixir operations on one pool; a failed spend leaves
the pool untouched, exactly as the engine's rejected play does. -/
def runOps : ℚ → List ElixirOp → ℚ
  | e, [] => e
  | e, ElixirOp.regen :: rest => runOps (regenerate e) rest
  | e, ElixirOp.spendCard c :: rest => runOps ((spend e c).getD e) rest

/-
Combat-state lemmas (claims C1, C10, C4).
-/

lemma damagedHP_le (hp d : ℤ) (h0 : 0 < hp) (hd : 0 ≤ d) : damagedHP hp d ≤ hp := by
  unfold damagedHP; split <;> omega

/-- On a canonical side `[GuardTower1, GuardTower2, KingTower]`, applyDamage
evaluates to a nested case split on which tower is the first with positive
hit points. -/
lemma applyDamage_canonical (g1 g2 k : Tower) (d : ℤ)
    (h1 : g1.typ = "Guard Tower 1") (h2 : g2.typ = "Guard Tower 2")
    (hk : k.typ = "King Tower") :
    applyDamage [g1, g2, k] d =
      if 0 < g1.HP then
        ([{ g1 with HP := damagedHP g1.HP d }, g2, k],
          g1.typ ++ " (HP now " ++ toString (damagedHP g1.HP d) ++ ")")
      else if 0 < g2.HP then
        ([g1, { g2 with HP := damagedHP g2.HP d }, k],
          g2.typ ++ " (HP now " ++ toString (damagedHP g2.HP d) ++ ")")
      else if 0 < k.HP then
        ([g1, g2, { k with HP := damagedHP k.HP d }],
          k.typ ++ " (HP now " ++ toString (damagedHP k.HP d) ++ ")")
      else ([g1, g2, k], "No towers left") := by
  have n12 : ¬(g1.typ = "Guard Tower 2" ∧ 0 < g1.HP) := by rw [h1]; simp
  have n1k : ¬(g1.typ = "King Tower" ∧ 0 < g1.HP) := by rw [h1]; simp
  have n21 : ¬(g2.typ = "Guard Tower 1" ∧ 0 < g2.HP) := by rw [h2]; simp
  have n2k : ¬(g2.typ = "King Tower" ∧ 0 < g2.HP) := by rw [h2]; simp
  have nk1 : ¬(k.typ = "Guard Tower 1" ∧ 0 < k.HP) := by rw [hk]; simp
  have nk2 : ¬(k.typ = "Guard Tower 2" ∧ 0 < k.HP) := by rw [hk]; simp
  by_cases a1 : 0 < g1.HP
  · simp [applyDamage, applyDamageLoop, damageFirst, targetOrder, h1, a1]
  · by_cases a2 : 0 < g2.HP
    · simp [applyDamage, applyDamageLoop, damageFirst, targetOrder, h1, h2, a1, a2,
        n21, nk1, n12]
    · by_cases a3 : 0 < k.HP
      · simp [applyDamage, applyDamageLoop, damageFirst, targetOrder, h1, h2, hk,
          a1, a2, a3, n21, nk1, n12, nk2, n1k, n2k]
      · simp [applyDamage, applyDamageLoop, damageFirst, targetOrder, h1, h2, hk,
          a1, a2, a3, n21, nk1, n12, nk2, n1k, n2k]

/-- Claim C1: for a side's tower list and any damage amount, applyDamage
damages exactly the first tower in the fixed order [GuardTower1,
GuardTower2, KingTower] whose hit points are positive, subtracting the
full amount clamped at 0 from below, and returns a descriptor naming that
tower and its resulting hit points; when every tower is already at 0 hit
points it returns the "No towers left" sentinel and leaves the list
unchanged. -/
theorem applyDamage_targets_first_alive (g1 g2 k : Tower) (d : ℤ)
    (h1 : g1.typ = "Guard Tower 1") (h2 : g2.typ = "Guard Tower 2")
    (hk : k.typ = "King Tower")
    (_p1 : 0 ≤ g1.HP) (_p2 : 0 ≤ g2.HP) (_pk : 0 ≤ k.HP) :
    applyDamage [g1, g2, k] d =
      if 0 < g1.HP then
        ([{ g1 with HP := damagedHP g1.HP d }, g2, k],
          g1.typ ++ " (HP now " ++ toString (damagedHP g1.HP d) ++ ")")
      else if 0 < g2.HP then
        ([g1, { g2 with HP := damagedHP g2.HP d }, k],
          g2.typ ++ " (HP now " ++ toString (damagedHP g2.HP d) ++ ")")
      else if 0 < k.HP then
        ([g1, g2, { k with HP := damagedHP k.HP d }],
          k.typ ++ " (HP now " ++ toString (damagedHP k.HP d) ++ ")")
      else ([g1, g2, k], "No towers left") :=
  applyDamage_canonical g1 g2 k d h1 h2 hk

theorem applyDamage_targets_first_alive_witness :
    (0 : ℤ) ≤ stdGuard1.HP ∧
    applyDamage [stdGuard1, stdGuard2, stdKing] 1100 =
      ([{ stdGuard1 with HP := 0 }, stdGuard2, stdKing], "Guard Tower 1 (HP now 0)") := by
  constructor
  · decide
  · have h := applyDamage_targets_first_alive stdGuard1 stdGuard2 stdKing 1100
      rfl rfl rfl (by decide) (by decide) (by decide)
    rw [h]
    decide

/-- Claim C10 (amended): on a side's tower list, applyDamage preserves the
typ, ATK, DEF, CRIT and MaxHP of every tower, changes the HP of at most one
tower, and, when the damage amount is nonnegative, never increases any
tower's hit points. -/
theorem applyDamage_frame_props (g1 g2 k : Tower) (d : ℤ)
    (h1 : g1.typ = "Guard Tower 1") (h2 : g2.typ = "Guard Tower 2")
    (hk : k.typ = "King Tower") :
    ((applyDamage [g1, g2, k] d).1.map Tower.typ = [g1.typ, g2.typ, k.typ]
      ∧ (applyDamage [g1, g2, k] d).1.map Tower.ATK = [g1.ATK, g2.ATK, k.ATK]
      ∧ (applyDamage [g1, g2, k] d).1.map Tower.DEF = [g1.DEF, g2.DEF, k.DEF]
      ∧ (applyDamage [g1, g2, k] d).1.map Tower.CRIT = [g1.CRIT, g2.CRIT, k.CRIT]
      ∧ (applyDamage [g1, g2, k] d).1.map Tower.MaxHP = [g1.MaxHP, g2.MaxHP, k.MaxHP])
    ∧ (∃ a b c, (applyDamage [g1, g2, k] d).1.map Tower.HP = [a, b, c]
        ∧ ((a = g1.HP ∧ b = g2.HP) ∨ (a = g1.HP ∧ c = k.HP) ∨ (b = g2.HP ∧ c = k.HP))
        ∧ (0 ≤ d → a ≤ g1.HP ∧ b ≤ g2.HP ∧ c ≤ k.HP)) := by
  rw [applyDamage_canonical g1 g2 k d h1 h2 hk]
  by_cases a1 : 0 < g1.HP
  · refine ⟨by simp [a1], damagedHP g1.HP d, g2.HP, k.HP, by simp [a1], Or.inr (Or.inr ⟨rfl, rfl⟩), ?_⟩
    intro hd
    exact ⟨damagedHP_le _ _ a1 hd, le_refl _, le_refl _⟩
  · by_cases a2 : 0 < g2.HP
    · refine ⟨by simp [a1, a2], g1.HP, damagedHP g2.HP d, k.HP, by simp [a1, a2],
        Or.inr (Or.inl ⟨rfl, rfl⟩), ?_⟩
      intro hd
      exact ⟨le_refl _, damagedHP_le _ _ a2 hd, le_refl _⟩
    · by_cases a3 : 0 < k.HP
      · refine ⟨by simp [a1, a2, a3], g1.HP, g2.HP, damagedHP k.HP d, by simp [a1, a2, a3],
          Or.inl ⟨rfl, rfl⟩, ?_⟩
        intro hd
        exact ⟨le_refl _, le_refl _, damagedHP_le _ _ a3 hd⟩
      · exact ⟨by simp [a1, a2, a3], g1.HP, g2.HP, k.HP, by simp [a1, a2, a3],
          Or.inl ⟨rfl, rfl⟩, fun _ => ⟨le_refl _, le_refl _, le_refl _⟩⟩

theorem applyDamage_frame_props_witness :
    (applyDamage [stdGuard1, stdGuard2, stdKing] 300).1.map Tower.MaxHP =
      [stdGuard1.MaxHP, stdGuard2.MaxHP, stdKing.MaxHP] ∧
    (applyDamage [stdGuard1, stdGuard2, stdKing] 300).1.map Tower.typ =
      [stdGuard1.typ, stdGuard2.typ, stdKing.typ] :=
  ⟨(applyDamage_frame_props stdGuard1 stdGuard2 stdKing 300 rfl rfl rfl).1.2.2.2.2,
    (applyDamage_frame_props stdGuard1 stdGuard2 stdKing 300 rfl rfl rfl).1.1⟩

/-- Claim C10, counterexample to the claim as stated: with a negative
damage amount, applyDamage increases the first tower's hit points (the
standard guard tower goes from 1000 to 1005 on damage -5). -/
theorem negative_damage_heals_cex :
    (applyDamage [stdGuard1, stdGuard2, stdKing] (-5)).1.map Tower.HP = [1005, 1000, 2000] ∧
    stdGuard1.HP = 1000 ∧ (1000 : ℤ) < 1005 := by
  refine ⟨?_, by decide, by decide⟩
  decide


lemma finishInput_win (st1 : EngineState) (action a : String)
    (h : (finishInput st1 action).2 = InputRes.played a true) :
    isKingTowerDestroyed (finishInput st1 action).1.enemyTowers = true := by
  unfold finishInput at h ⊢
  by_cases hc : isKingTowerDestroyed st1.enemyTowers = true
  · rw [if_pos hc]
    simpa using hc
  · rw [if_neg hc] at h
    simp at h

lemma finishEnemy_win (st1 : EngineState)
    (h : (finishEnemy st1).2 = some Outcome.opponentWin) :
    isKingTowerDestroyed (finishEnemy st1).1.playerTowers = true := by
  unfold finishEnemy at h ⊢
  by_cases hc : isKingTowerDestroyed st1.playerTowers = true
  · rw [if_pos hc]
    simpa using hc
  · rw [if_neg hc] at h
    simp at h

/-- Claim C4: isKingTowerDestroyed is true on a side exactly when the King
Tower's hit points are at most 0; a side with both guard towers at 0 but a
standing King Tower is not terminal; and the engine ends the battle in
PlayerWin (resp. OpponentWin) only in states whose defending King Tower is
down according to this predicate. -/
theorem kingTowerDown_iff (g1 g2 k : Tower)
    (h1 : g1.typ = "Guard Tower 1") (h2 : g2.typ = "Guard Tower 2")
    (hk : k.typ = "King Tower") :
    (isKingTowerDestroyed [g1, g2, k] = true ↔ k.HP ≤ 0)
    ∧ (g1.HP = 0 → g2.HP = 0 → 0 < k.HP → isKingTowerDestroyed [g1, g2, k] = false)
    ∧ (∀ (deck : List Card) (st : EngineState) (input : String) (rf : ℤ) (u1 u2 : ℚ)
        (a : String),
        (handleInput deck st input rf u1 u2).2 = InputRes.played a true →
        isKingTowerDestroyed (handleInput deck st input rf u1 u2).1.enemyTowers = true)
    ∧ (∀ (enemyDeck : List Card) (opponentName : String) (st : EngineState)
        (cardIdx : ℕ) (rf : ℤ) (u1 u2 : ℚ),
        (handleEnemyTick enemyDeck opponentName st cardIdx rf u1 u2).2 =
          some Outcome.opponentWin →
        isKingTowerDestroyed
          (handleEnemyTick enemyDeck opponentName st cardIdx rf u1 u2).1.playerTowers
          = true) := by
  refine ⟨?_, ?_, ?_, ?_⟩
  · have hg1 : ¬(g1.typ = "King Tower") := by rw [h1]; simp
    have hg2 : ¬(g2.typ = "King Tower") := by rw [h2]; simp
    simp [isKingTowerDestroyed, hg1, hg2, hk]
  · intro e1 e2 e3
    have hg1 : ¬(g1.typ = "King Tower") := by rw [h1]; simp
    have hg2 : ¬(g2.typ = "King Tower") := by rw [h2]; simp
    simp [isKingTowerDestroyed, hg1, hg2, hk]
    omega
  · intro deck st input rf u1 u2 a h
    rcases hp : parseInt input with _ | c
    · simp [handleInput, hp] at h
    · simp only [handleInput, hp] at h ⊢
      by_cases hr : c < 1 ∨ (deck.length : ℤ) < c
      · rw [if_pos hr] at h
        simp at h
      · rw [if_neg hr] at h ⊢
        by_cases hcost : fl64 ((statsOrFallback (deck.getD (c - 1).toNat defaultCard).Name).ElixirCost : ℚ) > st.playerElixir
        · rw [if_pos hcost] at h
          simp at h
        · rw [if_neg hcost] at h ⊢
          exact finishInput_win _ _ a h
  · intro enemyDeck opponentName st cardIdx rf u1 u2 h
    simp only [handleEnemyTick] at h ⊢
    by_cases hking : isKingTowerDestroyed st.playerTowers = true
    · rw [if_pos hking] at h
      simp at h
    · rw [if_neg hking] at h ⊢
      exact finishEnemy_win _ h

theorem kingTowerDown_iff_witness :
    isKingTowerDestroyed [{ stdGuard1 with HP := 0 }, { stdGuard2 with HP := 0 }, stdKing]
      = false :=
  (kingTowerDown_iff { stdGuard1 with HP := 0 } { stdGuard2 with HP := 0 } stdKing
    rfl rfl rfl).2.1 (by decide) (by decide) (by decide)

/-
Damage-model lemmas (claims C5, C2, C7).
-/

lemma towerCritChanceOf_canonical (g1 g2 k : Tower) :
    towerCritChanceOf [g1, g2, k] =
      (if 0 < g1.HP then g1.CRIT else if 0 < g2.HP then g2.CRIT
        else if 0 < k.HP then k.CRIT else fl64 (mkRat 5 100)) := by
  by_cases a1 : 0 < g1.HP <;> by_cases a2 : 0 < g2.HP <;> by_cases a3 : 0 < k.HP <;>
    simp [towerCritChanceOf, List.find?, a1, a2, a3]

/-- Claim C5 (amended): in calculateDamage the tower-crit draw is compared
against the critical-hit chance of the first defending tower in the fixed
order [GuardTower1, GuardTower2, KingTower] whose hit points are positive;
when no defending tower has positive hit points, the chance used is the
fixed default 0.05 (the guard-tower value), not the King Tower's. -/
theorem towerCrit_uses_first_alive (g1 g2 k : Tower) (card : Card) (stats : CardStats)
    (randomFactor : ℤ) (u1 u2 : ℚ)
    (_h1 : g1.typ = "Guard Tower 1") (_h2 : g2.typ = "Guard Tower 2")
    (_hk : k.typ = "King Tower") :
    (calculateDamage card stats [g1, g2, k] randomFactor u1 u2).2.2 =
      decide (u2 < (if 0 < g1.HP then g1.CRIT else if 0 < g2.HP then g2.CRIT
        else if 0 < k.HP then k.CRIT else fl64 (mkRat 5 100))) := by
  have hcd : (calculateDamage card stats [g1, g2, k] randomFactor u1 u2).2.2
      = decide (u2 < towerCritChanceOf [g1, g2, k]) := rfl
  rw [hcd, towerCritChanceOf_canonical]

theorem towerCrit_uses_first_alive_witness :
    (calculateDamage ⟨"Z", 1⟩ ⟨3, 50, 100, fl64 (mkRat 5 100)⟩
        [stdGuard1, stdGuard2, stdKing] 0 (mkRat 1 2) (mkRat 1 50)).2.2 =
      decide ((mkRat 1 50 : ℚ) < (if 0 < stdGuard1.HP then stdGuard1.CRIT
        else if 0 < stdGuard2.HP then stdGuard2.CRIT
        else if 0 < stdKing.HP then stdKing.CRIT else fl64 (mkRat 5 100))) ∧
    (calculateDamage ⟨"Z", 1⟩ ⟨3, 50, 100, fl64 (mkRat 5 100)⟩
        [stdGuard1, stdGuard2, stdKing] 0 (mkRat 1 2) (mkRat 1 50)).2.2 = true :=
  ⟨towerCrit_uses_first_alive stdGuard1 stdGuard2 stdKing ⟨"Z", 1⟩
      ⟨3, 50, 100, fl64 (mkRat 5 100)⟩ 0 (mkRat 1 2) (mkRat 1 50) rfl rfl rfl,
    by decide⟩

/-- Claim C5, counterexample to the claim as stated: on a side whose towers
are all at 0 hit points, the chance used is the default 0.05, although the
King Tower's own critical-hit chance is 0.1; the draw u2 = 0.07 lies
between the two, so the claimed rule predicts a tower crit but the code
produces none. -/
theorem deadSide_uses_guard_default_cex :
    (calculateDamage ⟨"A", 1⟩ ⟨3, 120, 350, fl64 (mkRat 8 100)⟩
        [{ stdGuard1 with HP := 0 }, { stdGuard2 with HP := 0 }, { stdKing with HP := 0 }]
        0 1 (mkRat 7 100)).2.2 = false ∧
    (mkRat 7 100 : ℚ) < ({ stdKing with HP := 0 } : Tower).CRIT := by
  constructor <;> decide

/-- The crit multiplier exactly as the source builds it: start at 1.0, then
two sequential float64 multiplications (`*= 1.5`, then `*= 1.2`). -/
def critMultSeq (cardCrit towerCrit : Bool) : ℚ :=
  let m : ℚ := 1
  let m := if cardCrit then mul64 m (mkRat 3 2) else m
  if towerCrit then mul64 m (fl64 (mkRat 6 5)) else m

lemma calculateDamage_eq (card : Card) (stats : CardStats) (targetTowers : List Tower)
    (randomFactor : ℤ) (u1 u2 : ℚ) :
    calculateDamage card stats targetTowers randomFactor u1 u2 =
      (max 1 (truncQ (mul64 (intToF64 (stats.BaseDamage + (card.Level - 1) * 10 + randomFactor))
          (critMultSeq (decide (u1 < stats.CritChance))
            (decide (u2 < towerCritChanceOf targetTowers))))),
        decide (u1 < stats.CritChance), decide (u2 < towerCritChanceOf targetTowers)) := rfl

/-- The four values the crit multiplier can take, as explicit rationals:
1, 1.5, the float64 value of 1.2, and the float64 product 1.5 ⊗ 1.2 (one
ulp below 1.8). -/
lemma critMultSeq_eq (cardCrit towerCrit : Bool) :
    critMultSeq cardCrit towerCrit =
      (if cardCrit && towerCrit then mkRat 8106479329266892 4503599627370496
        else if cardCrit then mkRat 3 2
        else if towerCrit then mkRat 5404319552844595 4503599627370496
        else 1) := by
  cases cardCrit <;> cases towerCrit <;> decide

/-- Claim C2 (amended): calculateDamage always returns damage at least 1,
and the damage equals max(1, trunc(float64((base + (level-1)·10 + jitter))
⊗ multiplier)) where ⊗ is float64 multiplication and the multiplier is the
float64-computed crit factor (so a double crit multiplies by the float64
product 1.5 ⊗ 1.2, one ulp below 1.8, not by the real number 1.8). -/
def floatDamageFormula (base level jitter : ℤ) (cardCrit towerCrit : Bool) : ℤ :=
  max 1 (truncQ (mul64 (intToF64 (base + (level - 1) * 10 + jitter))
    (if cardCrit && towerCrit then mkRat 8106479329266892 4503599627370496
      else if cardCrit then mkRat 3 2
      else if towerCrit then mkRat 5404319552844595 4503599627370496
      else 1)))

/-- Claim C2 (amended), main theorem: for every card, stats, defending
towers and random draws, the returned damage is at least 1 and equals the
float64-evaluated formula. -/
theorem calculateDamage_ge_one_float_formula (card : Card) (stats : CardStats)
    (targetTowers : List Tower) (randomFactor : ℤ) (u1 u2 : ℚ) :
    1 ≤ (calculateDamage card stats targetTowers randomFactor u1 u2).1 ∧
    (calculateDamage card stats targetTowers randomFactor u1 u2).1 =
      floatDamageFormula stats.BaseDamage card.Level randomFactor
        (calculateDamage card stats targetTowers randomFactor u1 u2).2.1
        (calculateDamage card stats targetTowers randomFactor u1 u2).2.2 := by
  rw [calculateDamage_eq]
  constructor
  · exact le_max_left 1 _
  · simp only [floatDamageFormula]
    rw [critMultSeq_eq]

/-- Claim C2, counterexample to the claim as stated: with base damage 90,
level 2, jitter 0 and both crits drawn, the code returns 179, while
max(1, floor((90 + (2-1)·10 + 0) × (1.5 × 1.2))) = 180 in exact real
arithmetic. -/
theorem calculateDamage_exact_formula_cex :
    (calculateDamage ⟨"M", 2⟩ ⟨4, 90, 600, 1⟩ [] 0 0 0).1 = 179 ∧
    (calculateDamage ⟨"M", 2⟩ ⟨4, 90, 600, 1⟩ [] 0 0 0).2.1 = true ∧
    (calculateDamage ⟨"M", 2⟩ ⟨4, 90, 600, 1⟩ [] 0 0 0).2.2 = true ∧
    max (1 : ℤ) ⌊((90 + (2 - 1) * 10 + 0 : ℤ) : ℚ) * (mkRat 3 2 * mkRat 6 5)⌋ = 180 := by
  refine ⟨by decide, by decide, by decide, ?_⟩
  have h32 : (mkRat 3 2 : ℚ) = 3 / 2 := by rw [Rat.mkRat_eq_div]; norm_num
  have h65 : (mkRat 6 5 : ℚ) = 6 / 5 := by rw [Rat.mkRat_eq_div]; norm_num
  rw [h32, h65]
  norm_num

/-- Claim C7 (amended): when both crits occur, the damage is the truncated
float64 product of base-plus-jitter with the float64 multiplier
1.5 ⊗ 1.2 = 8106479329266892 · 2⁻⁵², which is one ulp below 1.8; at base
100, level 1, jitter 0 this yields 179 (see the witness), not 180. -/
theorem double_crit_float_multiplier (card : Card) (stats : CardStats)
    (targetTowers : List Tower) (randomFactor : ℤ) (u1 u2 : ℚ)
    (hc : u1 < stats.CritChance) (ht : u2 < towerCritChanceOf targetTowers) :
    (calculateDamage card stats targetTowers randomFactor u1 u2).1 =
      max 1 (truncQ (mul64 (intToF64 (stats.BaseDamage + (card.Level - 1) * 10 + randomFactor))
        (mkRat 8106479329266892 4503599627370496))) ∧
    mul64 (mkRat 3 2) (fl64 (mkRat 6 5)) = mkRat 8106479329266892 4503599627370496 := by
  constructor
  · rw [calculateDamage_eq]
    simp only [decide_eq_true hc, decide_eq_true ht, critMultSeq_eq, Bool.and_self, if_true]
  · decide

theorem double_crit_float_multiplier_witness :
    ((0 : ℚ) < (⟨3, 100, 800, 1⟩ : CardStats).CritChance) ∧
    ((0 : ℚ) < towerCritChanceOf [stdGuard2]) ∧
    (calculateDamage ⟨"W", 1⟩ ⟨3, 100, 800, 1⟩ [stdGuard2] 0 0 0).1 = 179 := by
  refine ⟨by decide, by decide, ?_⟩
  have h := (double_crit_float_multiplier ⟨"W", 1⟩ ⟨3, 100, 800, 1⟩ [stdGuard2] 0 0 0
    (by decide) (by decide)).1
  rw [h]
  decide

/-- Claim C7, counterexample to the claim as stated: base damage 100, level
1, jitter 0 with both crits yields 179, not exactly 180, because the crit
multiplier is computed in float64 where 1.5 × 1.2 is one ulp below 1.8. -/
theorem double_crit_not_180_cex :
    (calculateDamage ⟨"K", 1⟩ ⟨3, 100, 800, 1⟩ [stdGuard1] 0 0 0).1 = 179 ∧
    ¬((calculateDamage ⟨"K", 1⟩ ⟨3, 100, 800, 1⟩ [stdGuard1] 0 0 0).1 = 180) ∧
    (calculateDamage ⟨"K", 1⟩ ⟨3, 100, 800, 1⟩ [stdGuard1] 0 0 0).2.1 = true ∧
    (calculateDamage ⟨"K", 1⟩ ⟨3, 100, 800, 1⟩ [stdGuard1] 0 0 0).2.2 = true := by
  refine ⟨by decide, by decide, by decide, by decide⟩

/-
Elixir-pool lemmas (claims C3, C6).
-/

lemma fl64_small_int (n : ℤ) (h0 : -100 ≤ n) (h1 : n ≤ 100) : fl64 (n : ℚ) = (n : ℚ) :=
  fl64_intCast n (by omega)

lemma regenerate_int (n : ℤ) (h0 : 0 ≤ n) (h10 : n ≤ 10) :
    regenerate (n : ℚ) = ((min (n + 1) 10 : ℤ) : ℚ) := by
  have hcast : qadd (n : ℚ) 1 = ((n + 1 : ℤ) : ℚ) := by
    rw [qadd_eq]; push_cast; ring
  rw [regenerate, hcast, fl64_small_int (n + 1) (by omega) (by omega), minFloat]
  by_cases h : (n + 1 : ℤ) < 10
  · rw [if_pos (by exact_mod_cast h)]
    congr 1
    omega
  · rw [if_neg (by exact_mod_cast h)]
    have : min (n + 1) 10 = 10 := by omega
    rw [this]
    norm_num

lemma spend_int_fail (n c : ℤ) (hc0 : 0 ≤ c) (hc10 : c ≤ 10) (h : n < c) :
    spend (n : ℚ) c = none := by
  rw [spend, if_pos]
  rw [fl64_small_int c (by omega) (by omega)]
  exact_mod_cast h

lemma spend_int_ok (n c : ℤ) (hc0 : 0 ≤ c) (hc10 : c ≤ 10)
    (hn0 : 0 ≤ n) (hn10 : n ≤ 10) (h : c ≤ n) :
    spend (n : ℚ) c = some ((n - c : ℤ) : ℚ) := by
  have hflc : fl64 ((c : ℤ) : ℚ) = (c : ℚ) := fl64_small_int c (by omega) (by omega)
  rw [spend, if_neg]
  · have hsub : qsub ((n : ℤ) : ℚ) (fl64 ((c : ℤ) : ℚ)) = ((n - c : ℤ) : ℚ) := by
      rw [hflc, qsub_eq]; push_cast; ring
    rw [hsub, fl64_small_int (n - c) (by omega) (by omega)]
  · rw [hflc]
    simp only [gt_iff_lt, not_lt]
    exact_mod_cast h

lemma runOps_int (ops : List ElixirOp) : ∀ n : ℤ,
    (∀ c : ℤ, ElixirOp.spendCard c ∈ ops → 0 ≤ c ∧ c ≤ 10) →
    0 ≤ n → n ≤ 10 →
    ∃ m : ℤ, runOps (n : ℚ) ops = (m : ℚ) ∧ 0 ≤ m ∧ m ≤ 10 := by
  induction ops with
  | nil => intro n _ h0 h10; exact ⟨n, rfl, h0, h10⟩
  | cons op rest ih =>
    intro n hc h0 h10
    cases op with
    | regen =>
      have hrest : ∀ c : ℤ, ElixirOp.spendCard c ∈ rest → 0 ≤ c ∧ c ≤ 10 := by
        intro c hm
        exact hc c (List.mem_cons_of_mem _ hm)
      have hstep : runOps (n : ℚ) (ElixirOp.regen :: rest) =
          runOps (regenerate (n : ℚ)) rest := rfl
      rw [hstep, regenerate_int n h0 h10]
      exact ih (min (n + 1) 10) hrest (by omega) (by omega)
    | spendCard c =>
      have hcc : 0 ≤ c ∧ c ≤ 10 := hc c (List.mem_cons_self _ _)
      have hrest : ∀ c' : ℤ, ElixirOp.spendCard c' ∈ rest → 0 ≤ c' ∧ c' ≤ 10 := by
        intro c' hm
        exact hc c' (List.mem_cons_of_mem _ hm)
      have hstep : runOps (n : ℚ) (ElixirOp.spendCard c :: rest) =
          runOps ((spend (n : ℚ) c).getD (n : ℚ)) rest := rfl
      by_cases h : c ≤ n
      · rw [hstep, spend_int_ok n c hcc.1 hcc.2 h0 h10 h]
        exact ih (n - c) hrest (by omega) (by omega)
      · rw [hstep, spend_int_fail n c hcc.1 hcc.2 (by omega)]
        exact ih n hrest h0 h10

/-- Claim C3: starting from the initial pool of 10, every sequence of
regenerate and spend operations (with card costs in [0, 10]) keeps the
elixir pool within [0, 10]; spend never succeeds when the pool is below the
cost; and a rejected player play (cost above the pool) returns the state
completely unchanged with the loop continuing. -/
theorem elixir_invariant_and_rejection :
    (∀ ops : List ElixirOp,
      (∀ c : ℤ, ElixirOp.spendCard c ∈ ops → 0 ≤ c ∧ c ≤ 10) →
      0 ≤ runOps 10 ops ∧ runOps 10 ops ≤ 10) ∧
    (∀ (e : ℚ) (c : ℤ), e < fl64 (c : ℚ) → spend e c = none) ∧
    (∀ (deck : List Card) (st : EngineState) (input : String) (rf : ℤ) (u1 u2 : ℚ)
        (c : ℤ),
      parseInt input = some c → ¬(c < 1 ∨ (deck.length : ℤ) < c) →
      fl64 ((statsOrFallback (deck.getD (c - 1).toNat defaultCard).Name).ElixirCost : ℚ)
        > st.playerElixir →
      handleInput deck st input rf u1 u2 = (st, InputRes.insufficientElixir)) := by
  refine ⟨?_, ?_, ?_⟩
  · intro ops hcosts
    have h10 : (10 : ℚ) = ((10 : ℤ) : ℚ) := by norm_num
    rw [h10]
    obtain ⟨m, hm, hm0, hm10⟩ := runOps_int ops 10 hcosts (by omega) (by omega)
    rw [hm]
    constructor
    · exact_mod_cast hm0
    · exact_mod_cast hm10
  · intro e c h
    rw [spend, if_pos h]
  · intro deck st input rf u1 u2 c hp hr hcost
    simp only [handleInput, hp]
    rw [if_neg hr, if_pos hcost]

/-- A state with only 2 elixir in the player's pool, used by the witness of
the rejection scenario (spec: player elixir 2, card cost 5). -/
def lowElixirState : EngineState := ⟨stdTowers, stdTowers, 2, 10, []⟩

theorem elixir_invariant_and_rejection_witness :
    (0 ≤ runOps 10 [ElixirOp.regen, ElixirOp.spendCard 5]
      ∧ runOps 10 [ElixirOp.regen, ElixirOp.spendCard 5] ≤ 10) ∧
    handleInput [⟨"Giant", 1⟩] lowElixirState "1" 0 1 1 =
      (lowElixirState, InputRes.insufficientElixir) := by
  constructor
  · refine elixir_invariant_and_rejection.1 [ElixirOp.regen, ElixirOp.spendCard 5] ?_
    intro c hm
    simp at hm
    omega
  · exact elixir_invariant_and_rejection.2.2 [⟨"Giant", 1⟩] lowElixirState "1" 0 1 1 1
      (by decide) (by decide) (by decide)

lemma statsOrFallback_cost_bounds (name : String) :
    0 ≤ (statsOrFallback name).ElixirCost ∧ (statsOrFallback name).ElixirCost ≤ 10 := by
  unfold statsOrFallback cardDatabase
  split_ifs <;> decide

lemma finishInput_fst_playerElixir (st1 : EngineState) (action : String) :
    (finishInput st1 action).1.playerElixir = st1.playerElixir := by
  unfold finishInput
  split <;> rfl

lemma finishEnemy_fst_enemyElixir (st1 : EngineState) :
    (finishEnemy st1).1.enemyElixir = st1.enemyElixir := by
  unfold finishEnemy
  split <;> rfl

lemma simulateEnemyTurn_damage_pos (deck : List Card) (e : ℚ) (name : String)
    (towers : List Tower) (idx : ℕ) (rf : ℤ) (u1 u2 : ℚ)
    (h3 : ¬(e < 3)) (hne : deck ≠ []) :
    0 < (simulateEnemyTurn deck e name towers idx rf u1 u2).1 := by
  have hguard : ¬(e < 3 ∨ deck.length = 0) := by
    push_neg
    refine ⟨not_lt.mp h3, ?_⟩
    simpa [List.length_eq_zero] using hne
  simp only [simulateEnemyTurn, if_neg hguard]
  exact lt_of_lt_of_le zero_lt_one (le_max_left 1 _)

/-- Claim C6: a successful player play deducts exactly the selected card's
listed elixir cost from the player's pool, while an opponent play (which
happens whenever the policy returns positive damage) deducts a flat 3 from
the opponent's pool regardless of the card played. -/
theorem elixir_deduction_asymmetry :
    (∀ (deck : List Card) (st : EngineState) (input : String) (rf : ℤ) (u1 u2 : ℚ)
        (c n : ℤ),
      parseInt input = some c → ¬(c < 1 ∨ (deck.length : ℤ) < c) →
      st.playerElixir = (n : ℚ) → 0 ≤ n → n ≤ 10 →
      ¬(fl64 ((statsOrFallback (deck.getD (c - 1).toNat defaultCard).Name).ElixirCost : ℚ)
        > st.playerElixir) →
      (handleInput deck st input rf u1 u2).1.playerElixir =
        ((n - (statsOrFallback (deck.getD (c - 1).toNat defaultCard).Name).ElixirCost : ℤ) : ℚ))
    ∧ (∀ (enemyDeck : List Card) (opponentName : String) (st : EngineState)
        (cardIdx : ℕ) (rf : ℤ) (u1 u2 : ℚ) (n : ℤ),
      isKingTowerDestroyed st.playerTowers = false →
      st.enemyElixir = (n : ℚ) → 0 ≤ n → n ≤ 10 →
      ¬(st.enemyElixir < 3) → enemyDeck ≠ [] →
      (handleEnemyTick enemyDeck opponentName st cardIdx rf u1 u2).1.enemyElixir =
        ((n - 3 : ℤ) : ℚ)) := by
  constructor
  · intro deck st input rf u1 u2 c n hp hr hel h0 h10 hcost
    obtain ⟨hc0, hc10⟩ :=
      statsOrFallback_cost_bounds (deck.getD (c - 1).toNat defaultCard).Name
    set cost : ℤ := (statsOrFallback (deck.getD (c - 1).toNat defaultCard).Name).ElixirCost
      with hcostdef
    have hflc : fl64 ((cost : ℤ) : ℚ) = (cost : ℚ) := fl64_small_int cost (by omega) (by omega)
    have hcn : cost ≤ n := by
      have hle := not_lt.mp hcost
      rw [hflc, hel] at hle
      exact_mod_cast hle
    simp only [handleInput, hp]
    rw [if_neg hr, if_neg hcost, finishInput_fst_playerElixir]
    simp only []
    rw [hel, hflc]
    have hsub : qsub ((n : ℤ) : ℚ) ((cost : ℤ) : ℚ) = ((n - cost : ℤ) : ℚ) := by
      rw [qsub_eq]; push_cast; ring
    rw [hsub, fl64_small_int (n - cost) (by omega) (by omega)]
  · intro enemyDeck opponentName st cardIdx rf u1 u2 n hking hel h0 h10 hge3 hne
    have h3n : (3 : ℤ) ≤ n := by
      have hle := not_lt.mp hge3
      rw [hel] at hle
      exact_mod_cast hle
    have hpos := simulateEnemyTurn_damage_pos enemyDeck st.enemyElixir opponentName
      st.playerTowers cardIdx rf u1 u2 hge3 hne
    simp only [handleEnemyTick]
    rw [if_neg (by simp [hking]), if_pos hpos, finishEnemy_fst_enemyElixir]
    simp only []
    rw [hel]
    have hsub : qsub ((n : ℤ) : ℚ) 3 = ((n - 3 : ℤ) : ℚ) := by
      rw [qsub_eq]; push_cast; ring
    rw [hsub, fl64_small_int (n - 3) (by omega) (by omega)]

theorem elixir_deduction_asymmetry_witness :
    (handleInput [⟨"Giant", 1⟩] ⟨stdTowers, stdTowers, 10, 10, []⟩ "1" 0 1 1).1.playerElixir
      = ((5 : ℤ) : ℚ) ∧
    (handleEnemyTick [⟨"Giant", 1⟩] "Opp" ⟨stdTowers, stdTowers, 10, 10, []⟩ 0 0 1 1).1.enemyElixir
      = ((7 : ℤ) : ℚ) := by
  constructor
  · have h := elixir_deduction_asymmetry.1 [⟨"Giant", 1⟩] ⟨stdTowers, stdTowers, 10, 10, []⟩
      "1" 0 1 1 1 10 (by decide) (by decide) (by decide) (by decide) (by decide) (by decide)
    rw [h]
    decide
  · have h := elixir_deduction_asymmetry.2 [⟨"Giant", 1⟩] "Opp"
      ⟨stdTowers, stdTowers, 10, 10, []⟩ 0 0 1 1 10 (by decide) (by decide) (by decide)
      (by decide) (by decide) (by decide)
    rw [h]
    decide

/-
Input-handling lemmas (claims C8, C9).
-/

lemma finishInput_snd_ne_invalid (st1 : EngineState) (action : String) :
    (finishInput st1 action).2 ≠ InputRes.invalidChoice := by
  unfold finishInput
  split <;> simp

/-- Claim C8 (amended): the engine reports an invalid choice, leaves the
state untouched and keeps looping exactly when Sscanf-style parsing of the
line fails (no leading optional-sign digit run) or the parsed leading
integer lies outside [1, deckSize]; a line whose leading integer is in
range is accepted even when trailing characters follow it. -/
theorem invalidChoice_iff_parse_or_range (deck : List Card) (st : EngineState)
    (s : String) (rf : ℤ) (u1 u2 : ℚ) :
    handleInput deck st s rf u1 u2 = (st, InputRes.invalidChoice) ↔
      (match parseInt s with
       | none => True
       | some c => c < 1 ∨ (deck.length : ℤ) < c) := by
  rcases hp : parseInt s with _ | c
  · simp [handleInput, hp]
  · simp only [handleInput, hp]
    by_cases hr : c < 1 ∨ (deck.length : ℤ) < c
    · rw [if_pos hr]
      simpa using hr
    · rw [if_neg hr]
      simp only [hr, iff_false]
      intro h
      by_cases hcost : fl64 ((statsOrFallback (deck.getD (c - 1).toNat defaultCard).Name).ElixirCost : ℚ)
          > st.playerElixir
      · rw [if_pos hcost] at h
        simp at h
      · rw [if_neg hcost] at h
        exact finishInput_snd_ne_invalid _ _ (congrArg Prod.snd h)

/-- Claim C8, counterexample to the claim as stated: the line "1x" is not
an integer line "1"..deckSize, yet the engine does not report an invalid
choice; it parses the leading "1", plays that card and mutates the state
(elixir drops from 10 to 5). -/
theorem trailing_chars_accepted_cex :
    (handleInput [⟨"Giant", 3⟩] ⟨stdTowers, stdTowers, 10, 10, []⟩ "1x" 0 1 1).2
      ≠ InputRes.invalidChoice ∧
    (handleInput [⟨"Giant", 3⟩] ⟨stdTowers, stdTowers, 10, 10, []⟩ "1x" 0 1 1).1.playerElixir
      = (5 : ℚ) ∧
    parseInt "1x" = some 1 := by
  refine ⟨by decide, by decide, by decide⟩

/-- Claim C9 (amended): the reader delivers the line "0" first as a
player-input event and then as a surrender signal; processing the
surrender signal appends "Player surrendered" to the replay log, stops both
timers and returns the Surrender outcome; and processing the "0" line as a
player-input event produces an invalid-choice report with no state change. -/
theorem zero_line_delivery_and_surrender :
    deliverLine "0" = [Msg.input "0", Msg.quit] ∧
    (∀ st : EngineState, handleQuit st =
      ({ st with replay := st.replay ++ ["Player surrendered"] }, Outcome.surrender,
        true, true)) ∧
    (∀ (deck : List Card) (st : EngineState) (rf : ℤ) (u1 u2 : ℚ),
      handleInput deck st "0" rf u1 u2 = (st, InputRes.invalidChoice)) := by
  refine ⟨by decide, fun st => rfl, ?_⟩
  intro deck st rf u1 u2
  have hp : parseInt "0" = some 0 := by decide
  simp only [handleInput, hp]
  rw [if_pos (Or.inl (by norm_num))]

/-- Claim C9, counterexample to the claim as stated: the line "0" is also
delivered as a player-input event (the reader sends it on the input channel
before the quit channel), contradicting "never additionally as a
player-input event". -/
theorem zero_line_delivered_as_input_cex :
    Msg.input "0" ∈ deliverLine "0" := by decide
